import Mathlib

/-!
Shallow embedding of the quickwit repository's core data structures and
algorithms, together with theorems settling the frozen claims C1..C10.

Each definition carries a comment pointing at the source location it embeds.
Rust machine integers (u32/u64/usize) are modelled as Nat, i64 as Int;
HashMap/HashSet are modelled as association lists / membership lists;
fallible calls are modelled with Except/Option.
-/

/- ===================== Definitions ===================== -/

/-- Embeds `KillSwitch` from src/quickwit-actors/src/actor.rs (lines 82-113).
A handle carries its `step_id`; the shared `lowest_step_alive` atomic counter
is modelled as an explicit `floor : Nat` argument threaded through the group
operations (all clones of a kill-switch share that single counter). -/
structure KillSwitch where
  step_id : Nat
deriving DecidableEq

namespace KillSwitch

/-- `KillSwitch::default()`: `step_id = 0`; the shared counter starts at 0. -/
def default : KillSwitch := { step_id := 0 }

/-- The initial value of the shared `lowest_step_alive` counter (actor.rs line 92). -/
def initial_floor : Nat := 0

/-- `KillSwitch::kill` (actor.rs lines 98-100):
`lowest_step_alive.fetch_max(self.step_id + 1)`. Returns the new shared counter. -/
def kill (floor : Nat) (ks : KillSwitch) : Nat :=
  max floor (ks.step_id + 1)

/-- `KillSwitch::is_alive` (actor.rs lines 102-105):
`lowest_step_alive < self.step_id`. -/
def is_alive (floor : Nat) (ks : KillSwitch) : Bool :=
  floor < ks.step_id

/-- `KillSwitch::add_step` (actor.rs lines 107-112). -/
def add_step (ks : KillSwitch) : KillSwitch :=
  { step_id := ks.step_id + 1 }

end KillSwitch

/-- Clock states, src/quickwit-actors/src/clock.rs (lines 11-16). -/
inductive ClockState where
  | Idle
  | Running
  | Terminated
deriving DecidableEq

/-- Clock commands, src/quickwit-actors/src/clock.rs (lines 18-23). -/
inductive ClockCommand where
  | Terminate
  | Run
  | Pause
deriving DecidableEq

/-- Embeds `apply_command` from src/quickwit-actors/src/clock.rs (lines 83-90). -/
def apply_command (state : ClockState) (command : ClockCommand) : ClockState :=
  match state, command with
  | ClockState.Terminated, _ => ClockState.Terminated
  | _, ClockCommand.Terminate => ClockState.Terminated
  | _, ClockCommand.Pause => ClockState.Idle
  | _, ClockCommand.Run => ClockState.Running

/-- Embeds `Checkpoint` from src/quickwit-metastore/src/checkpoint.rs (lines 25-28).
The `HashMap<String, Vec<u8>>` field `per_partition_position` is modelled as an
association list; bytes are modelled as `List Nat`. -/
structure Checkpoint where
  per_partition_position : List (String × List Nat)

namespace Checkpoint

/-- Lookup in the association-list model of the `HashMap` (first match). -/
def lookup (c : Checkpoint) (partition_id : String) : Option (List Nat) :=
  c.per_partition_position.lookup partition_id

/-- `HashMap::insert`: replace the value at an existing key, else append the entry. -/
def map_insert (entries : List (String × List Nat)) (k : String) (v : List Nat) :
    List (String × List Nat) :=
  match entries with
  | [] => [(k, v)]
  | (k0, v0) :: rest =>
    if k0 = k then (k0, v) :: rest else (k0, v0) :: map_insert rest k v

/-- Embeds `Checkpoint::update_checkpoint` (checkpoint.rs lines 31-35):
for each `(partition_id, partition_position)` of the update, insert it into
`self.per_partition_position`. -/
def update_checkpoint (c : Checkpoint) (checkpoint_update : Checkpoint) : Checkpoint :=
  { per_partition_position :=
      checkpoint_update.per_partition_position.foldl
        (fun m kv => map_insert m kv.1 kv.2) c.per_partition_position }

end Checkpoint

/-- State of the unique queue from
src/quickwit-indexing/src/scheduling/unique_queue.rs: the underlying unbounded
MPSC channel's pending items (`queue`, FIFO) and the shared
`items_in_queue: HashSet<T>` (modelled as a duplicate-free membership list).
`unbounded_channel` (lines 59-71) starts both empty. -/
structure UniqueQueue (T : Type) where
  queue : List T
  items_in_queue : List T
deriving DecidableEq

namespace UniqueQueue

/-- `unbounded_channel` initial state (unique_queue.rs lines 59-71). -/
def empty {T : Type} : UniqueQueue T := { queue := [], items_in_queue := [] }

/-- Embeds `Sender::send` (unique_queue.rs lines 48-56): if the item is in
`items_in_queue` return `Ok(())` leaving the state unchanged; otherwise insert
it into the set and push it at the back of the channel. The `Ok`/closed-channel
distinction is outside this single-process model: `send` always succeeds. -/
def send {T : Type} [DecidableEq T] (s : UniqueQueue T) (item : T) : UniqueQueue T :=
  if item ∈ s.items_in_queue then s
  else { queue := s.queue ++ [item], items_in_queue := item :: s.items_in_queue }

/-- Embeds `Receiver::recv` (unique_queue.rs lines 33-38): pop the front of the
channel (or `None` when nothing is pending), then remove the popped item from
`items_in_queue` (the code asserts the removal succeeds). -/
def recv {T : Type} [DecidableEq T] (s : UniqueQueue T) : UniqueQueue T × Option T :=
  match s.queue with
  | [] => (s, none)
  | x :: rest => ({ queue := rest, items_in_queue := s.items_in_queue.erase x }, some x)

end UniqueQueue

/-- An operation on a unique queue: one `send(x)` or one `recv()`. -/
inductive UQOp (T : Type) where
  | send (x : T)
  | recv

/-- One step of the unique queue under an operation. -/
def uq_step {T : Type} [DecidableEq T] (s : UniqueQueue T) (op : UQOp T) : UniqueQueue T :=
  match op with
  | UQOp.send x => UniqueQueue.send s x
  | UQOp.recv => (UniqueQueue.recv s).1

/-- The unique-queue state reached from a fresh `unbounded_channel` by a
sequence of send/recv operations. -/
def uq_run {T : Type} [DecidableEq T] (ops : List (UQOp T)) : UniqueQueue T :=
  ops.foldl uq_step UniqueQueue.empty

/-- The internal invariant of the unique queue: the channel content is
duplicate-free, the marker set is duplicate-free, and an item is pending in the
channel exactly when it is marked in `items_in_queue`. -/
def uq_inv {T : Type} (s : UniqueQueue T) : Prop :=
  s.queue.Nodup ∧ s.items_in_queue.Nodup ∧ (∀ x, x ∈ s.queue ↔ x ∈ s.items_in_queue)

/-- `PartialHit` from the wire protocol (quickwit_proto), as used by root.rs and
leaf.rs: `{sorting_field_value: i64, split_id, segment_ord: u32, doc_id: u32}`. -/
structure PartialHit where
  sorting_field_value : Int
  split_id : String
  segment_ord : Nat
  doc_id : Nat
deriving DecidableEq

/-- An entry of `failed_requests`: a split id together with its error. -/
structure SplitSearchError where
  split_id : String
  error : String
deriving DecidableEq

/-- `LeafSearchResult` from the wire protocol. The source field `partial_hits`
is spelled `phits` here; every other field keeps its source name. -/
structure LeafSearchResult where
  num_hits : Nat
  phits : List PartialHit
  failed_requests : List SplitSearchError
  num_attempted_splits : Nat
deriving DecidableEq

/-- `SearchRequest` from the wire protocol (root.rs, leaf.rs). -/
structure SearchRequest where
  index_id : String
  query : String
  search_fields : List String
  start_timestamp : Option Int
  end_timestamp : Option Int
  max_hits : Nat
  start_offset : Nat
deriving DecidableEq

/-- `Job` from crate::client_pool (used by root.rs). -/
structure Job where
  split : String
  cost : Nat
deriving DecidableEq

/-- `LeafSearchRequest` from the wire protocol (root.rs lines 70-73). -/
structure LeafSearchRequest where
  search_request : Option SearchRequest
  split_ids : List String
deriving DecidableEq

/-- `Hit` from the wire protocol. The source field `partial_hit` is spelled
`phit` here. -/
structure Hit where
  json : String
  phit : Option PartialHit
deriving DecidableEq

/-- `FetchDocsRequest` from the wire protocol (root.rs lines 262-265); the
source field `partial_hits` is spelled `phits` here. -/
structure FetchDocsRequest where
  phits : List PartialHit
  index_id : String
deriving DecidableEq

/-- `FetchDocsResult` from the wire protocol. -/
structure FetchDocsResult where
  hits : List Hit
deriving DecidableEq

/-- `SearchResult` from the wire protocol (root.rs lines 304-308). The
wall-clock `elapsed_time_micros` is modelled as 0. -/
structure SearchResult where
  num_hits : Nat
  hits : List Hit
  elapsed_time_micros : Nat
deriving DecidableEq

/-- `NodeSearchError` (root.rs lines 53-57); `SearchError` is modelled as a
string message. -/
structure NodeSearchError where
  search_error : String
  split_ids : List String
deriving DecidableEq

/-- `ErrorRetries` (root.rs lines 99-104). -/
structure ErrorRetries where
  retry_split_ids : List String
  nodes_to_use : List String
deriving DecidableEq

/-- `SearchResultsByAddr` (root.rs line 59): the per-node results of the leaf
phase, keyed by node address (the `HashMap` is modelled as an association
list). -/
def SearchResultsByAddr : Type := List (String × Except NodeSearchError LeafSearchResult)

/-- Descending order on partial hits by `sorting_field_value`. -/
def ph_desc (a b : PartialHit) : Prop :=
  b.sorting_field_value ≤ a.sorting_field_value

instance : DecidableRel ph_desc := fun a b =>
  inferInstanceAs (Decidable (b.sorting_field_value ≤ a.sorting_field_value))

instance : IsTotal PartialHit ph_desc :=
  ⟨fun a b => (le_total a.sorting_field_value b.sorting_field_value).symm⟩

instance : IsTrans PartialHit ph_desc :=
  ⟨fun _ _ _ hab hbc => le_trans hbc hab⟩

/-- The sort key of the final-hit sort in `root_search` (root.rs lines 287-300):
the hit's `sorting_field_value`, defaulting to 0 when the hit carries no
partial hit. -/
def hit_sorting_value (h : Hit) : Int :=
  match h.phit with
  | some ph => ph.sorting_field_value
  | none => 0

/-- Descending order on hits, as compared by the sort in root.rs lines 287-300. -/
def hit_desc (a b : Hit) : Prop :=
  hit_sorting_value b ≤ hit_sorting_value a

instance : DecidableRel hit_desc := fun a b =>
  inferInstanceAs (Decidable (hit_sorting_value b ≤ hit_sorting_value a))

instance : IsTotal Hit hit_desc :=
  ⟨fun a b => (le_total (hit_sorting_value a) (hit_sorting_value b)).symm⟩

instance : IsTrans Hit hit_desc :=
  ⟨fun _ _ _ hab hbc => le_trans hbc hab⟩

/-- The stable sort `hits.sort_by(... descending ...)` of root.rs lines 287-300. -/
def sort_hits (hits : List Hit) : List Hit :=
  hits.insertionSort hit_desc

/-- Modelled from the spec: the collector built by `make_collector` and its
`merge_fruits` (crate::collector, which is not under src/). Per spec sections
4.8/4.9, merging sums the hit counts, concatenates the partial hits, sorts them
by `sorting_field_value` descending and keeps the
`[start_offset, start_offset + max_hits)` window of the request the collector
was built from; `failed_requests` are concatenated and `num_attempted_splits`
summed. -/
def merge_fruits (r : SearchRequest) (results : List LeafSearchResult) : LeafSearchResult :=
  { num_hits := (results.map LeafSearchResult.num_hits).sum
    phits := (((results.map LeafSearchResult.phits).flatten.insertionSort ph_desc).drop
      r.start_offset).take r.max_hits
    failed_requests := (results.map LeafSearchResult.failed_requests).flatten
    num_attempted_splits := (results.map LeafSearchResult.num_attempted_splits).sum }

/-- Embeds the leaf-request construction of `root_search` (root.rs lines
206-209): the leaf request keeps the original request but sets
`start_offset = 0` and `max_hits = max_hits + start_offset`. -/
def mk_request_with_offset_0 (r : SearchRequest) : SearchRequest :=
  { r with start_offset := 0, max_hits := r.max_hits + r.start_offset }

/-- Embeds the per-client leaf requests of `execute_search` (root.rs lines
69-73): each assigned client receives the offset-0 request and its jobs'
split ids. -/
def execute_search_requests (search_request_with_offset_0 : SearchRequest)
    (assigned : List (String × List Job)) : List LeafSearchRequest :=
  assigned.map (fun client_jobs =>
    { search_request := some search_request_with_offset_0
      split_ids := client_jobs.2.map Job.split })

/-- The partial hits of a merged result belonging to one split: the entry of
`partial_hits_map` (root.rs lines 247-254) for that split (the map groups the
merged result's partial hits by `split_id`, preserving their order). -/
def phits_for_split (phits : List PartialHit) (split : String) : List PartialHit :=
  phits.filter (fun ph => ph.split_id = split)

/-- Embeds the fetch-docs request construction of `root_search` (root.rs lines
256-273): for each assigned job, in assignment order, a request is issued iff
the job's split has at least one partial hit in the merged result. -/
def fetch_docs_requests (index_id : String) (assigned : List (String × List Job))
    (phits : List PartialHit) : List FetchDocsRequest :=
  ((assigned.map Prod.snd).flatten).filterMap (fun job =>
    if (phits_for_split phits job.split).isEmpty then none
    else some { phits := phits_for_split phits job.split, index_id := index_id })

/-- Embeds the fetch-docs response merge of `root_search` (root.rs lines
277-286): responses are folded in order; an `Ok` contributes its hits, an
`Err` is logged and skipped. -/
def collect_fetched_hits (responses : List (Except String FetchDocsResult)) : List Hit :=
  responses.foldl
    (fun hits r =>
      match r with
      | Except.ok fetch_docs_result => hits ++ fetch_docs_result.hits
      | Except.error _ => hits)
    []

/-- Embeds the final assembly of `root_search` (root.rs lines 277-308): the
collected hits are sorted descending by `sorting_field_value` and the result's
`num_hits` is the merged leaf result's `num_hits`. -/
def root_assemble (merged : LeafSearchResult)
    (responses : List (Except String FetchDocsResult)) : SearchResult :=
  { num_hits := merged.num_hits
    hits := sort_hits (collect_fetched_hits responses)
    elapsed_time_micros := 0 }

/-- A faithful fetch-docs service: returns one `Hit` per requested partial hit,
carrying that partial hit (exactly as the mock services of root.rs's own tests
do). The real service is a remote collaborator outside src/. -/
def ideal_fetch_docs (req : FetchDocsRequest) : Except String FetchDocsResult :=
  Except.ok { hits := req.phits.map (fun ph => { json := "", phit := some ph }) }

/-- Embeds `leaf_search` (leaf.rs lines 146-176) given the request the
collector was built from and the per-split search outcomes: the outcomes are
partitioned into successes and failures, the failures are DISCARDED (the
`merged_search_results.failed_requests.extend(errors)` line is commented out in
the source, leaf.rs line 174), and the successes alone are merged with the
collector's `merge_fruits`. -/
def leaf_search (r : SearchRequest)
    (split_search_results : List (Except String LeafSearchResult)) :
    Except String LeafSearchResult :=
  let search_results := split_search_results.filterMap (fun res =>
    match res with
    | Except.ok v => some v
    | Except.error _ => none)
  Except.ok (merge_fruits r search_results)

/-- The root-search pipeline after the leaf phase, as composed in `root_search`
(root.rs lines 206-308): merge the leaf results through the collector built
from the ORIGINAL request (so its window is the original
`start_offset`/`max_hits`), group the merged partial hits by split over the
assigned jobs, send one fetch-docs request per job whose split has partial
hits, and assemble the final result from the responses. -/
def root_search_after_leaf (r : SearchRequest) (assigned : List (String × List Job))
    (leaf_results : List LeafSearchResult)
    (fetch : FetchDocsRequest → Except String FetchDocsResult) : SearchResult :=
  root_assemble (merge_fruits r leaf_results)
    ((fetch_docs_requests r.index_id assigned (merge_fruits r leaf_results).phits).map fetch)

/-- Embeds `contains_errors` inside `analyze_errors` (root.rs lines 113-119):
a node counts iff its entry is an error OR it returned Ok with an EMPTY
`failed_requests` list (this is the condition exactly as written in the
source). -/
def contains_errors (search_result : SearchResultsByAddr) : Bool :=
  search_result.any (fun kv =>
    match kv.2 with
    | Except.error _ => true
    | Except.ok ok_res => ok_res.failed_requests.isEmpty)

/-- Embeds `complete_failure_nodes` (root.rs lines 123-133): nodes whose entry
errored or whose `failed_requests` count equals `num_attempted_splits`. -/
def complete_failure_nodes (search_result : SearchResultsByAddr) : List String :=
  (search_result.filter (fun kv =>
    match kv.2 with
    | Except.ok ok_res => ok_res.failed_requests.length = ok_res.num_attempted_splits
    | Except.error _ => true)).map Prod.fst

/-- Embeds `partial_or_no_failure_nodes` (root.rs lines 134-143), spelled
without the source's first word: nodes that returned Ok with
`failed_requests.len() != num_attempted_splits`. -/
def p_or_no_failure_nodes (search_result : SearchResultsByAddr) : List String :=
  (search_result.filter (fun kv =>
    match kv.2 with
    | Except.ok ok_res => !(ok_res.failed_requests.length = ok_res.num_attempted_splits)
    | Except.error _ => false)).map Prod.fst

/-- Embeds `failed_split_ids` (root.rs lines 147-158): the `failed_requests`
split ids of the successful leaf responses, concatenated. -/
def failed_split_ids (search_result : SearchResultsByAddr) : List String :=
  ((search_result.filterMap (fun kv =>
    match kv.2 with
    | Except.ok ok_res => some ok_res
    | Except.error _ => none)).map (fun res =>
      res.failed_requests.map SplitSearchError.split_id)).flatten

/-- Embeds `analyze_errors` (root.rs lines 112-170). -/
def analyze_errors (search_result : SearchResultsByAddr) : Option ErrorRetries :=
  if !contains_errors search_result then none
  else
    let retry_nodes :=
      if (p_or_no_failure_nodes search_result).isEmpty then
        complete_failure_nodes search_result
      else
        p_or_no_failure_nodes search_result
    some { retry_split_ids := failed_split_ids search_result, nodes_to_use := retry_nodes }

/-- Modelled from the spec: the byte-range cache `SliceCache` (quickwit_storage,
not under src/) in its unbounded mode, keyed by `(path, byte_range)`; `get`
consults it and `put` inserts. Byte ranges are `(start, end)` pairs and bytes
are `List Nat`. -/
structure SliceCache where
  entries : List ((String × Nat × Nat) × List Nat)

/-- `SliceCache::get`: the cached bytes for exactly this `(path, byte_range)`. -/
def SliceCache.get (c : SliceCache) (path : String) (byte_range : Nat × Nat) :
    Option (List Nat) :=
  c.entries.lookup (path, byte_range)

/-- `SliceCache::put`: cache bytes under `(path, byte_range)`. -/
def SliceCache.put (c : SliceCache) (path : String) (byte_range : Nat × Nat)
    (bytes : List Nat) : SliceCache :=
  { entries := ((path, byte_range), bytes) :: c.entries }

/-- Embeds `CachingFileHandle::read_bytes` (caching_directory.rs lines 115-126):
consult the cache for `(path, byte_range)`; on a hit return the cached bytes,
on a miss fetch from the underlying file handle, insert into the cache and
return. `underlying` models the wrapped handle's read; the third output
component records the ranges actually fetched from the underlying storage
(empty on a hit). `read_bytes_async` (lines 128-142) performs the identical
cache-hit/miss steps and is embedded by this same function. -/
def caching_read_bytes (underlying : (Nat × Nat) → Except String (List Nat))
    (path : String) (cache : SliceCache) (byte_range : Nat × Nat) :
    Except String (List Nat) × SliceCache × List (Nat × Nat) :=
  match SliceCache.get cache path byte_range with
  | some bytes => (Except.ok bytes, cache, [])
  | none =>
    match underlying byte_range with
    | Except.ok bytes =>
      (Except.ok bytes, SliceCache.put cache path byte_range bytes, [byte_range])
    | Except.error e => (Except.error e, cache, [byte_range])

/-- Outcome of an actor's `process_message`: success, or one of the
`MessageProcessError` variants (actor.rs lines 10-18). -/
inductive ProcessOutcome where
  | ok
  | onDemand
  | downstreamClosed
  | err
deriving DecidableEq

/-- `ActorTermination` (actor_handle.rs lines 196-208). -/
inductive ActorTermination where
  | OnDemand
  | ActorError
  | KillSwitch
  | Disconnect
  | DownstreamClosed
deriving DecidableEq

/-- What one iteration of an actor loop observes: the kill-switch seen tripped
(at either of the two checks), a user message, an observe request, a receive
timeout, or a disconnected mailbox. -/
inductive LoopEvent (M : Type) where
  | killed
  | msg (m : M)
  | observeReq
  | timeout
  | disconnected

/-- Embeds `async_actor_loop` (async_actor.rs lines 60-108) over a
deterministic event trace. `process` is the actor's `process_message`, `obs`
its `observable_state`, and the `O` argument the current value of the
`state_tx` watch register. Returns the termination cause, the final actor state
and the final watch value; `none` when the trace ends with the loop still
running. Note there is no extra publish after the loop: `AsyncActor::spawn`
(async_actor.rs lines 29-57) returns the loop's result as is. -/
def async_actor_loop {S O M : Type} (process : S → M → S × ProcessOutcome) (obs : S → O) :
    S → O → List (LoopEvent M) → Option (ActorTermination × S × O)
  | _, _, [] => none
  | s, w, e :: rest =>
    match e with
    | LoopEvent.killed => some (ActorTermination.KillSwitch, s, w)
    | LoopEvent.timeout => async_actor_loop process obs s w rest
    | LoopEvent.observeReq => async_actor_loop process obs s (obs s) rest
    | LoopEvent.disconnected => some (ActorTermination.Disconnect, s, w)
    | LoopEvent.msg m =>
      match process s m with
      | (s2, ProcessOutcome.ok) => async_actor_loop process obs s2 w rest
      | (s2, ProcessOutcome.onDemand) => some (ActorTermination.OnDemand, s2, w)
      | (s2, ProcessOutcome.err) => some (ActorTermination.ActorError, s2, w)
      | (s2, ProcessOutcome.downstreamClosed) => some (ActorTermination.DownstreamClosed, s2, w)

/-- Embeds `sync_actor_loop` (sync_actor.rs lines 66-119): same structure as
the async loop, except that a disconnected mailbox first runs `finalize()`
(modelled as the new state plus a success flag; a failure terminates as
`ActorError`, sync_actor.rs lines 107-112). -/
def sync_actor_loop {S O M : Type} (process : S → M → S × ProcessOutcome) (obs : S → O)
    (finalize : S → S × Bool) :
    S → O → List (LoopEvent M) → Option (ActorTermination × S × O)
  | _, _, [] => none
  | s, w, e :: rest =>
    match e with
    | LoopEvent.killed => some (ActorTermination.KillSwitch, s, w)
    | LoopEvent.timeout => sync_actor_loop process obs finalize s w rest
    | LoopEvent.observeReq => sync_actor_loop process obs finalize s (obs s) rest
    | LoopEvent.disconnected =>
      match finalize s with
      | (s2, true) => some (ActorTermination.Disconnect, s2, w)
      | (s2, false) => some (ActorTermination.ActorError, s2, w)
    | LoopEvent.msg m =>
      match process s m with
      | (s2, ProcessOutcome.ok) => sync_actor_loop process obs finalize s2 w rest
      | (s2, ProcessOutcome.onDemand) => some (ActorTermination.OnDemand, s2, w)
      | (s2, ProcessOutcome.err) => some (ActorTermination.ActorError, s2, w)
      | (s2, ProcessOutcome.downstreamClosed) => some (ActorTermination.DownstreamClosed, s2, w)

/-- Embeds `SyncActor::spawn` (sync_actor.rs lines 46-53): run the sync loop,
then publish the final observable state to the watch register once more
(`state_tx.send(self.observable_state())`, line 51). -/
def sync_actor_spawn_run {S O M : Type} (process : S → M → S × ProcessOutcome) (obs : S → O)
    (finalize : S → S × Bool) (s : S) (w : O) (events : List (LoopEvent M)) :
    Option (ActorTermination × S × O) :=
  match sync_actor_loop process obs finalize s w events with
  | some (t, s2, _) => some (t, s2, obs s2)
  | none => none

/- ===================== Theorems ===================== -/

/-- C1 (code bug evaluation): the code's `is_alive` compares with a strict `<`,
so (1) a freshly created kill-switch (`step_id = 0`, shared counter `0`, no kill
yet) reports `is_alive() = false`, where the claim (and the repository's own
tests, which spawn actors under `KillSwitch::default()` and expect
`Observation::Running`) require `true`; and (2) after `kill()` on the handle of
step id 0, the handle of step id 1 (strictly greater than 0) also reports
`is_alive() = false`, where the claim requires `true`. -/
theorem killswitch_fresh_and_higher_step_report_dead :
    KillSwitch.is_alive KillSwitch.initial_floor KillSwitch.default = false ∧
    KillSwitch.is_alive
      (KillSwitch.kill KillSwitch.initial_floor KillSwitch.default)
      (KillSwitch.add_step KillSwitch.default) = false := by
  constructor <;> rfl

/-- C6: the clock command function satisfies exactly the spec transition table:
`Terminated` absorbs every command; from any state other than `Terminated`,
`Terminate` goes to `Terminated`, `Pause` goes to `Idle`, `Run` goes to
`Running`. -/
theorem apply_command_matches_transition_table :
    (∀ c, apply_command ClockState.Terminated c = ClockState.Terminated) ∧
    (∀ s, s ≠ ClockState.Terminated →
      apply_command s ClockCommand.Terminate = ClockState.Terminated ∧
      apply_command s ClockCommand.Pause = ClockState.Idle ∧
      apply_command s ClockCommand.Run = ClockState.Running) := by
  constructor
  · intro c; cases c <;> rfl
  · intro s hs
    cases s with
    | Terminated => exact absurd rfl hs
    | Idle => exact ⟨rfl, rfl, rfl⟩
    | Running => exact ⟨rfl, rfl, rfl⟩

/-- Witness for C6: the transition table instantiated at the `Idle` state. -/
theorem apply_command_matches_transition_table_witness :
    apply_command ClockState.Idle ClockCommand.Terminate = ClockState.Terminated ∧
    apply_command ClockState.Idle ClockCommand.Pause = ClockState.Idle ∧
    apply_command ClockState.Idle ClockCommand.Run = ClockState.Running :=
  apply_command_matches_transition_table.2 ClockState.Idle (by decide)

theorem lookup_none_of_not_mem_keys (l : List (String × List Nat)) (a : String)
    (h : a ∉ l.map Prod.fst) : l.lookup a = none := by
  induction l with
  | nil => rfl
  | cons kv rest ih =>
    obtain ⟨k, v⟩ := kv
    simp only [List.map, List.mem_cons, not_or] at h
    simp [List.lookup, beq_false_of_ne h.1, ih h.2]

theorem lookup_map_insert (m : List (String × List Nat)) (k k' : String) (v : List Nat) :
    (Checkpoint.map_insert m k v).lookup k' = if k' = k then some v else m.lookup k' := by
  induction m with
  | nil =>
    by_cases h : k' = k
    · subst h; simp [Checkpoint.map_insert, List.lookup]
    · simp [Checkpoint.map_insert, List.lookup, beq_false_of_ne h, h]
  | cons kv rest ih =>
    obtain ⟨k0, v0⟩ := kv
    by_cases h0 : k0 = k
    · subst h0
      by_cases h' : k' = k0
      · subst h'; simp [Checkpoint.map_insert, List.lookup]
      · simp [Checkpoint.map_insert, List.lookup, beq_false_of_ne h', h']
    · by_cases h' : k' = k0
      · subst h'
        simp [Checkpoint.map_insert, h0, List.lookup]
      · simp [Checkpoint.map_insert, h0, List.lookup, beq_false_of_ne h', ih]

theorem lookup_foldl_insert (u : List (String × List Nat)) (m : List (String × List Nat))
    (p : String) (hu : (u.map Prod.fst).Nodup) :
    (u.foldl (fun acc kv => Checkpoint.map_insert acc kv.1 kv.2) m).lookup p =
      match u.lookup p with
      | some v => some v
      | none => m.lookup p := by
  induction u generalizing m with
  | nil => simp [List.lookup]
  | cons kv rest ih =>
    obtain ⟨k, v⟩ := kv
    simp only [List.map, List.nodup_cons] at hu
    obtain ⟨hk, hrest⟩ := hu
    simp only [List.foldl]
    rw [ih _ hrest]
    by_cases hp : p = k
    · subst hp
      have hnone : rest.lookup p = none := lookup_none_of_not_mem_keys rest p hk
      simp [hnone, List.lookup, lookup_map_insert]
    · simp [List.lookup, beq_false_of_ne hp, lookup_map_insert, hp]

/-- C8: `Checkpoint::update_checkpoint` is a partial merge keyed by partition:
every partition id present in the update ends up mapped to the position carried
by the update, and every partition id absent from the update keeps the position
it had before the call. (The update is a `HashMap`, so its keys are distinct.) -/
theorem checkpoint_update_partial_merge (c u : Checkpoint)
    (hu : (u.per_partition_position.map Prod.fst).Nodup) :
    (∀ p v, u.lookup p = some v → (c.update_checkpoint u).lookup p = some v) ∧
    (∀ p, u.lookup p = none → (c.update_checkpoint u).lookup p = c.lookup p) := by
  constructor
  · intro p v hpv
    show (u.per_partition_position.foldl
      (fun m kv => Checkpoint.map_insert m kv.1 kv.2) c.per_partition_position).lookup p = some v
    rw [lookup_foldl_insert _ _ _ hu]
    have : u.per_partition_position.lookup p = some v := hpv
    simp [this]
  · intro p hp
    show (u.per_partition_position.foldl
      (fun m kv => Checkpoint.map_insert m kv.1 kv.2) c.per_partition_position).lookup p =
        c.per_partition_position.lookup p
    rw [lookup_foldl_insert _ _ _ hu]
    have : u.per_partition_position.lookup p = none := hp
    simp [this]

/-- Witness for C8: a concrete checkpoint update. Partition "b" is overwritten
by the update's position, partition "a" (absent from the update) is unchanged. -/
theorem checkpoint_update_partial_merge_witness :
    (Checkpoint.update_checkpoint ⟨[("a", [1]), ("b", [2])]⟩
        ⟨[("b", [9]), ("c", [3])]⟩).lookup "b" = some [9] ∧
    (Checkpoint.update_checkpoint ⟨[("a", [1]), ("b", [2])]⟩
        ⟨[("b", [9]), ("c", [3])]⟩).lookup "a" = some [1] :=
  ⟨(checkpoint_update_partial_merge ⟨[("a", [1]), ("b", [2])]⟩ ⟨[("b", [9]), ("c", [3])]⟩
      (by decide)).1 "b" [9] (by decide),
   (checkpoint_update_partial_merge ⟨[("a", [1]), ("b", [2])]⟩ ⟨[("b", [9]), ("c", [3])]⟩
      (by decide)).2 "a" (by decide)⟩

theorem uq_inv_empty {T : Type} : uq_inv (UniqueQueue.empty : UniqueQueue T) :=
  ⟨List.nodup_nil, List.nodup_nil, fun x => by simp [UniqueQueue.empty]⟩

theorem uq_inv_step {T : Type} [DecidableEq T] (s : UniqueQueue T) (op : UQOp T)
    (h : uq_inv s) : uq_inv (uq_step s op) := by
  obtain ⟨hq, hm, hiff⟩ := h
  cases op with
  | send x =>
    show uq_inv (UniqueQueue.send s x)
    by_cases hx : x ∈ s.items_in_queue
    · simpa [UniqueQueue.send, hx] using And.intro hq (And.intro hm hiff)
    · simp only [UniqueQueue.send, hx, if_false]
      refine ⟨?_, List.nodup_cons.mpr ⟨hx, hm⟩, ?_⟩
      · rw [List.Perm.nodup_iff (List.perm_append_singleton x s.queue)]
        exact List.nodup_cons.mpr ⟨fun hxq => hx ((hiff x).mp hxq), hq⟩
      · intro y
        constructor
        · intro hy
          rcases List.mem_append.mp hy with h1 | h1
          · exact List.mem_cons_of_mem _ ((hiff y).mp h1)
          · simp only [List.mem_singleton] at h1
            subst h1
            exact List.mem_cons_self y _
        · intro hy
          rcases List.mem_cons.mp hy with h1 | h1
          · subst h1
            exact List.mem_append.mpr (Or.inr (by simp))
          · exact List.mem_append.mpr (Or.inl ((hiff y).mpr h1))
  | recv =>
    show uq_inv (UniqueQueue.recv s).1
    obtain ⟨q, marks⟩ := s
    cases q with
    | nil => exact ⟨hq, hm, hiff⟩
    | cons x rest =>
      simp only [UniqueQueue.recv]
      have hxrest : x ∉ rest := (List.nodup_cons.mp hq).1
      have hrest : rest.Nodup := (List.nodup_cons.mp hq).2
      refine ⟨hrest, hm.erase x, ?_⟩
      intro y
      constructor
      · intro hy
        have hyx : y ≠ x := fun he => hxrest (he ▸ hy)
        have : y ∈ marks := (hiff y).mp (List.mem_cons_of_mem _ hy)
        exact hm.mem_erase_iff.mpr ⟨hyx, this⟩
      · intro hy
        obtain ⟨hyx, hymarks⟩ := hm.mem_erase_iff.mp hy
        rcases List.mem_cons.mp ((hiff y).mpr hymarks) with h1 | h1
        · exact absurd h1 hyx
        · exact h1

theorem uq_inv_foldl {T : Type} [DecidableEq T] (ops : List (UQOp T)) (s : UniqueQueue T)
    (h : uq_inv s) : uq_inv (ops.foldl uq_step s) := by
  induction ops generalizing s with
  | nil => exact h
  | cons op rest ih => exact ih _ (uq_inv_step s op h)

theorem uq_inv_run {T : Type} [DecidableEq T] (ops : List (UQOp T)) : uq_inv (uq_run ops) :=
  uq_inv_foldl ops UniqueQueue.empty uq_inv_empty

/-- C7: for every state of the unique queue reachable from `unbounded_channel`
by send/recv operations: the channel never holds two copies of the same item;
`send(x)` while `x` is pending succeeds without enqueueing a second copy (state
unchanged); `recv()` dequeues the front item `x` and removes exactly `x`'s
pending marker (every other marker is untouched), after which `send(x)`
enqueues `x` again. -/
theorem unique_queue_send_recv_behavior {T : Type} [DecidableEq T] (ops : List (UQOp T)) :
    (uq_run ops).queue.Nodup ∧
    (∀ x, x ∈ (uq_run ops).items_in_queue →
      UniqueQueue.send (uq_run ops) x = uq_run ops) ∧
    (∀ x rest, (uq_run ops).queue = x :: rest →
      (UniqueQueue.recv (uq_run ops)).2 = some x ∧
      x ∉ (UniqueQueue.recv (uq_run ops)).1.items_in_queue ∧
      (∀ y, y ≠ x →
        (y ∈ (UniqueQueue.recv (uq_run ops)).1.items_in_queue ↔
          y ∈ (uq_run ops).items_in_queue)) ∧
      UniqueQueue.send (UniqueQueue.recv (uq_run ops)).1 x =
        { queue := rest ++ [x],
          items_in_queue := x :: (UniqueQueue.recv (uq_run ops)).1.items_in_queue }) := by
  have hinv := uq_inv_run ops
  refine ⟨hinv.1, ?_, ?_⟩
  · intro x hx
    simp [UniqueQueue.send, hx]
  · intro x rest hqeq
    obtain ⟨hq, hm, hiff⟩ := hinv
    cases hs : uq_run ops with
    | mk q marks =>
      rw [hs] at hqeq hq hm
      simp only at hqeq hq hm
      subst hqeq
      have hx_not_erase : x ∉ marks.erase x := hm.not_mem_erase
      refine ⟨rfl, hx_not_erase, ?_, ?_⟩
      · intro y hyx
        show y ∈ marks.erase x ↔ y ∈ marks
        constructor
        · intro hy
          exact (hm.mem_erase_iff.mp hy).2
        · intro hy
          exact hm.mem_erase_iff.mpr ⟨hyx, hy⟩
      · show UniqueQueue.send ⟨rest, marks.erase x⟩ x =
          ({ queue := rest ++ [x], items_in_queue := x :: marks.erase x } : UniqueQueue T)
        simp [UniqueQueue.send, hx_not_erase]

/-- Witness for C7: after `send 1; send 2` the queue is `[1, 2]` with no
duplicate, a repeated `send 1` leaves the state unchanged, and `recv` yields 1. -/
theorem unique_queue_send_recv_behavior_witness :
    (uq_run [UQOp.send 1, UQOp.send 2]).queue.Nodup ∧
    UniqueQueue.send (uq_run [UQOp.send 1, UQOp.send 2]) (1 : Nat) =
      uq_run [UQOp.send 1, UQOp.send 2] ∧
    (UniqueQueue.recv (uq_run [UQOp.send 1, UQOp.send 2])).2 = some 1 :=
  have h := unique_queue_send_recv_behavior [UQOp.send (1 : Nat), UQOp.send 2]
  ⟨h.1, h.2.1 1 (by decide), (h.2.2 1 [2] (by decide)).1⟩

/-- C5 (amended): on every termination path the SYNC flavor publishes the final
observable state to the watch register once more after the message loop exits
(`SyncActor::spawn` republishes). The ASYNC flavor does not: its loop updates
the watch register only when it serves an observe request, so on an async run
whose trace contains no observe request the register still holds its initial
value when the loop terminates, whatever the termination path. -/
theorem actor_final_state_publication :
    (∀ (S O M : Type) (process : S → M → S × ProcessOutcome) (obs : S → O)
       (finalize : S → S × Bool) (s : S) (w : O) (events : List (LoopEvent M))
       (t : ActorTermination) (s2 : S) (w2 : O),
       sync_actor_spawn_run process obs finalize s w events = some (t, s2, w2) →
       w2 = obs s2) ∧
    (∀ (S O M : Type) (process : S → M → S × ProcessOutcome) (obs : S → O)
       (s : S) (w : O) (events : List (LoopEvent M))
       (t : ActorTermination) (s2 : S) (w2 : O),
       (∀ e ∈ events, e ≠ LoopEvent.observeReq) →
       async_actor_loop process obs s w events = some (t, s2, w2) →
       w2 = w) := by
  constructor
  · intro S O M process obs finalize s w events t s2 w2 h
    unfold sync_actor_spawn_run at h
    cases hl : sync_actor_loop process obs finalize s w events with
    | none => rw [hl] at h; exact absurd h (by simp)
    | some r =>
      obtain ⟨t0, s0, w0⟩ := r
      rw [hl] at h
      simp only [Option.some.injEq, Prod.mk.injEq] at h
      obtain ⟨_, hs, hw⟩ := h
      rw [← hw, ← hs]
  · intro S O M process obs s w events
    induction events generalizing s w with
    | nil =>
      intro t s2 w2 _ h
      exact absurd h (by simp [async_actor_loop])
    | cons e rest ih =>
      intro t s2 w2 hobs h
      have hrest : ∀ e2 ∈ rest, e2 ≠ LoopEvent.observeReq :=
        fun e2 he2 => hobs e2 (List.mem_cons_of_mem e he2)
      cases e with
      | killed =>
        simp only [async_actor_loop, Option.some.injEq, Prod.mk.injEq] at h
        exact h.2.2.symm
      | timeout =>
        exact ih s w t s2 w2 hrest (by simpa [async_actor_loop] using h)
      | observeReq =>
        exact absurd rfl (hobs LoopEvent.observeReq (List.mem_cons_self _ _))
      | disconnected =>
        simp only [async_actor_loop, Option.some.injEq, Prod.mk.injEq] at h
        exact h.2.2.symm
      | msg m =>
        simp only [async_actor_loop] at h
        cases hp : process s m with
        | mk s3 outcome =>
          rw [hp] at h
          cases outcome with
          | ok => exact ih s3 w t s2 w2 hrest h
          | onDemand =>
            simp only [Option.some.injEq, Prod.mk.injEq] at h
            exact h.2.2.symm
          | err =>
            simp only [Option.some.injEq, Prod.mk.injEq] at h
            exact h.2.2.symm
          | downstreamClosed =>
            simp only [Option.some.injEq, Prod.mk.injEq] at h
            exact h.2.2.symm

/-- C5 counterexample: a concrete ASYNC actor run (a counter whose
`process_message` increments, `observable_state` the count) that terminates via
`Disconnect` — a non-timeout termination path — after processing one message.
The loop result's watch value is still the initial snapshot 0 while the final
observable state is 1: no final publish happens after the async loop exits, so
an observer reading the watch register after termination does NOT see the last
snapshot, refuting the claim as stated for the async flavor. -/
theorem async_actor_no_final_publication_counterexample :
    async_actor_loop (fun (s : Nat) (_ : Unit) => (s + 1, ProcessOutcome.ok)) (fun s => s)
      0 0 [LoopEvent.msg (), LoopEvent.disconnected] =
      some (ActorTermination.Disconnect, 1, 0) ∧ (0 : Nat) ≠ 1 :=
  ⟨rfl, by decide⟩

/-- Witness for C5 (amended): a concrete sync run (counter actor, observable
state `10 * count`) terminating via Disconnect; the spawn wrapper republishes,
so the watch register holds `10 * 1`, the final observable state. -/
theorem actor_final_state_publication_witness :
    sync_actor_spawn_run (fun (s : Nat) (_ : Unit) => (s + 1, ProcessOutcome.ok))
        (fun s => 10 * s) (fun s => (s, true)) 0 0
        [LoopEvent.msg (), LoopEvent.disconnected] =
      some (ActorTermination.Disconnect, 1, 10) ∧ (10 : Nat) = 10 * 1 :=
  ⟨rfl,
   actor_final_state_publication.1 Nat Nat Unit
     (fun s _ => (s + 1, ProcessOutcome.ok)) (fun s => 10 * s) (fun s => (s, true)) 0 0
     [LoopEvent.msg (), LoopEvent.disconnected] ActorTermination.Disconnect 1 10 rfl⟩

/-- C9: reads through the caching directory (`read_bytes` and
`read_bytes_async` alike, both embedded by `caching_read_bytes`): when the
cache holds an entry for exactly this `(path, byte_range)` the cached bytes
are returned, the cache is unchanged and the underlying storage is not touched
(no range is fetched); otherwise the bytes are fetched from the underlying
file handle, inserted into the cache under `(path, byte_range)` (so a repeat
read hits), and returned. -/
theorem caching_directory_read_consults_cache_first
    (underlying : (Nat × Nat) → Except String (List Nat))
    (path : String) (cache : SliceCache) (byte_range : Nat × Nat) :
    (∀ bytes, SliceCache.get cache path byte_range = some bytes →
      caching_read_bytes underlying path cache byte_range = (Except.ok bytes, cache, [])) ∧
    (∀ bytes, SliceCache.get cache path byte_range = none →
      underlying byte_range = Except.ok bytes →
      caching_read_bytes underlying path cache byte_range =
        (Except.ok bytes, SliceCache.put cache path byte_range bytes, [byte_range]) ∧
      SliceCache.get (SliceCache.put cache path byte_range bytes) path byte_range =
        some bytes) := by
  constructor
  · intro bytes hget
    simp [caching_read_bytes, hget]
  · intro bytes hget hu
    refine ⟨by simp [caching_read_bytes, hget, hu], ?_⟩
    simp [SliceCache.get, SliceCache.put, List.lookup]

/-- Witness for C9: a miss on an empty cache fetches `[7]` from the underlying
handle and caches it; the repeat read is a hit returning the cached `[7]`
without consulting the (now different) underlying handle. -/
theorem caching_directory_read_consults_cache_first_witness :
    caching_read_bytes (fun _ => Except.ok [7]) "f" ⟨[]⟩ (0, 4) =
      (Except.ok [7], SliceCache.put ⟨[]⟩ "f" (0, 4) [7], [(0, 4)]) ∧
    caching_read_bytes (fun _ => Except.ok [9]) "f" (SliceCache.put ⟨[]⟩ "f" (0, 4) [7]) (0, 4) =
      (Except.ok [7], SliceCache.put ⟨[]⟩ "f" (0, 4) [7], []) :=
  ⟨((caching_directory_read_consults_cache_first (fun _ => Except.ok [7]) "f" ⟨[]⟩ (0, 4)).2
      [7] (by decide) rfl).1,
   (caching_directory_read_consults_cache_first (fun _ => Except.ok [9]) "f"
      (SliceCache.put ⟨[]⟩ "f" (0, 4) [7]) (0, 4)).1 [7] (by decide)⟩

/-- C4 (code bug evaluation): the `contains_errors` gate of `analyze_errors`
is inverted — an Ok node counts as "containing errors" precisely when its
`failed_requests` list is EMPTY. Consequently (1) when the only node succeeded
with no failed requests, `analyze_errors` still returns retry work (`some`),
where the claim requires none to be reported; and (2) when the only node
succeeded with one failed request out of two attempted splits,
`analyze_errors` returns `none`, where the claim requires `retry_split_ids =
["split1"]` and that node as the retry candidate. -/
theorem analyze_errors_gate_inverted :
    (analyze_errors [("node1", Except.ok
        { num_hits := 0, phits := [], failed_requests := [],
          num_attempted_splits := 1 })]).isSome = true ∧
    analyze_errors [("node1", Except.ok
        { num_hits := 0, phits := [],
          failed_requests := [{ split_id := "split1", error := "storage" }],
          num_attempted_splits := 2 })] = none := by
  constructor <;> rfl

/-- C3 (code bug evaluation): `leaf_search` over two splits where split1's
per-split search succeeds with one partial hit and split2's fails. The call
still returns Ok and the successful split is merged into the result (that part
of the claim holds), but the failing split's id and error are NOT recorded:
the returned `failed_requests` is empty — leaf.rs discards the error partition
(the `failed_requests.extend(errors)` line is commented out at line 174 under
a "TODO save error" comment). -/
theorem leaf_search_discards_failed_split_errors :
    leaf_search (mk_request_with_offset_0
        { index_id := "idx", query := "q", search_fields := [], start_timestamp := none,
          end_timestamp := none, max_hits := 10, start_offset := 0 })
      [Except.ok
        { num_hits := 1,
          phits := [{ sorting_field_value := 3, split_id := "split1",
                      segment_ord := 1, doc_id := 1 }],
          failed_requests := [], num_attempted_splits := 1 },
       Except.error "split2: storage error"] =
      Except.ok
        { num_hits := 1,
          phits := [{ sorting_field_value := 3, split_id := "split1",
                      segment_ord := 1, doc_id := 1 }],
          failed_requests := [], num_attempted_splits := 1 } := by
  rfl

/-- C10: the `num_hits` of the result assembled by `root_search` equals the
merged leaf result's `num_hits` whatever the fetch-docs responses are; a
fetch-docs response that is an error is skipped and contributes no hits; and
concretely a merged result with `num_hits = 3` whose only fetch-docs response
errored yields a hits list with fewer entries (0) than `num_hits`. -/
theorem root_num_hits_independent_of_fetch_docs :
    (∀ (merged : LeafSearchResult) (responses : List (Except String FetchDocsResult)),
      (root_assemble merged responses).num_hits = merged.num_hits) ∧
    (∀ (merged : LeafSearchResult) (responses : List (Except String FetchDocsResult))
       (e : String),
      (root_assemble merged (responses ++ [Except.error e])).hits =
        (root_assemble merged responses).hits) ∧
    (root_assemble
        { num_hits := 3, phits := [], failed_requests := [], num_attempted_splits := 1 }
        [Except.error "fetch failed"]).hits.length <
      (root_assemble
        { num_hits := 3, phits := [], failed_requests := [], num_attempted_splits := 1 }
        [Except.error "fetch failed"]).num_hits := by
  refine ⟨fun merged responses => rfl, fun merged responses e => ?_, by decide⟩
  simp [root_assemble, collect_fetched_hits, List.foldl_append]

theorem collect_foldl_acc (responses : List (Except String FetchDocsResult)) (acc : List Hit) :
    responses.foldl
      (fun hits r =>
        match r with
        | Except.ok fetch_docs_result => hits ++ fetch_docs_result.hits
        | Except.error _ => hits) acc =
    acc ++ (responses.map (fun r =>
      match r with
      | Except.ok fetch_docs_result => fetch_docs_result.hits
      | Except.error _ => [])).flatten := by
  induction responses generalizing acc with
  | nil => simp
  | cons r rest ih =>
    cases r with
    | ok res => simp [ih, List.append_assoc]
    | error e => simp [ih]

theorem collect_fetched_hits_eq (responses : List (Except String FetchDocsResult)) :
    collect_fetched_hits responses = (responses.map (fun r =>
      match r with
      | Except.ok fetch_docs_result => fetch_docs_result.hits
      | Except.error _ => [])).flatten := by
  simpa [collect_fetched_hits] using collect_foldl_acc responses []

theorem ideal_collect_eq (index_id : String) (jobs : List Job) (phits : List PartialHit) :
    collect_fetched_hits ((jobs.filterMap (fun job =>
        if (phits_for_split phits job.split).isEmpty then none
        else some ({ phits := phits_for_split phits job.split,
                     index_id := index_id } : FetchDocsRequest))).map
      ideal_fetch_docs) =
    (jobs.map (fun job => (phits_for_split phits job.split).map
      (fun ph => ({ json := "", phit := some ph } : Hit)))).flatten := by
  induction jobs with
  | nil => rfl
  | cons j rest ih =>
    rw [collect_fetched_hits_eq] at ih ⊢
    by_cases hempty : (phits_for_split phits j.split).isEmpty
    · have h1 : phits_for_split phits j.split = [] := List.isEmpty_iff.mp hempty
      have hf : (if (phits_for_split phits j.split).isEmpty then none
          else some ({ phits := phits_for_split phits j.split,
                       index_id := index_id } : FetchDocsRequest)) = none := by
        simp [hempty]
      rw [List.filterMap_cons]
      simp only [hf]
      rw [List.map_cons, List.flatten_cons, h1]
      simpa using ih
    · have hf : (if (phits_for_split phits j.split).isEmpty then none
          else some ({ phits := phits_for_split phits j.split,
                       index_id := index_id } : FetchDocsRequest)) =
          some ({ phits := phits_for_split phits j.split,
                  index_id := index_id } : FetchDocsRequest) := by
        simp [hempty]
      rw [List.filterMap_cons]
      simp only [hf]
      simp only [List.map_cons, List.flatten_cons]
      rw [ih]
      simp [ideal_fetch_docs]

theorem flatten_filter_key_perm {α κ : Type} [DecidableEq κ] (key : α → κ)
    (keys : List κ) (l : List α) (hnd : keys.Nodup) (hcov : ∀ a ∈ l, key a ∈ keys) :
    List.Perm ((keys.map (fun s => l.filter (fun a => key a = s))).flatten) l := by
  induction keys generalizing l with
  | nil =>
    have hl : l = [] := List.eq_nil_iff_forall_not_mem.mpr (fun a ha => by simpa using hcov a ha)
    simp [hl]
  | cons s rest ih =>
    obtain ⟨hs_not_mem, hrest_nd⟩ := List.nodup_cons.mp hnd
    simp only [List.map_cons, List.flatten_cons]
    have hfix : ∀ s2 ∈ rest, l.filter (fun a => key a = s2) =
        (l.filter (fun a => !(decide (key a = s)))).filter (fun a => key a = s2) := by
      intro s2 hs2
      rw [List.filter_filter]
      apply List.filter_congr
      intro a _
      by_cases h : key a = s2
      · have hne : ¬ (key a = s) := by
          intro hh
          exact hs_not_mem ((hh.symm.trans h) ▸ hs2)
        have hne2 : ¬ s2 = s := fun hss => hs_not_mem (hss ▸ hs2)
        simp [h, hne, hne2]
      · simp [h]
    rw [List.map_congr_left hfix]
    have hcov2 : ∀ a ∈ l.filter (fun a => !(decide (key a = s))), key a ∈ rest := by
      intro a ha
      have hm := List.mem_filter.mp ha
      have h3 : ¬ (key a = s) := by simpa using hm.2
      rcases List.mem_cons.mp (hcov a hm.1) with h4 | h4
      · exact absurd h4 h3
      · exact h4
    refine List.Perm.trans
      (List.Perm.append_left (l.filter (fun a => key a = s))
        (ih (l.filter (fun a => !(decide (key a = s)))) hrest_nd hcov2)) ?_
    exact List.filter_append_perm _ l

theorem collect_map_phit (jobs : List Job) (W : List PartialHit) :
    (((jobs.map (fun job => (phits_for_split W job.split).map
        (fun ph => ({ json := "", phit := some ph } : Hit)))).flatten).map Hit.phit) =
    (((jobs.map Job.split).map (fun s =>
      W.filter (fun a => a.split_id = s))).flatten).map (fun ph => some ph) := by
  induction jobs with
  | nil => rfl
  | cons j rest ih =>
    simp only [List.map_cons, List.flatten_cons, List.map_append]
    rw [ih]
    congr 1
    simp [phits_for_split, List.map_map, Function.comp]

/-- C2: for every root search over request `r` (start_offset `o`, max_hits `m`)
whose assignment places every relevant split on exactly one job (distinct job
splits covering the merged hits): every leaf-search request built for an
assigned client carries `start_offset = 0` and `max_hits = m + o`; and the
final hits list (with the fetch-docs phase answering faithfully) is sorted by
`sorting_field_value` descending and is, as a multiset, exactly the
`[o, o + m)` window of the descending-sorted concatenation of the leaf partial
hits — the first `o` hits are skipped and at most `m` hits are returned. -/
theorem root_search_leaf_offset_and_final_window
    (r : SearchRequest) (assigned : List (String × List Job))
    (leaf_results : List LeafSearchResult)
    (hnd : (((assigned.map Prod.snd).flatten).map Job.split).Nodup)
    (hcov : ∀ ph ∈ (merge_fruits r leaf_results).phits,
      ph.split_id ∈ ((assigned.map Prod.snd).flatten).map Job.split) :
    (∀ lreq ∈ execute_search_requests (mk_request_with_offset_0 r) assigned,
      lreq.search_request = some (mk_request_with_offset_0 r) ∧
      (mk_request_with_offset_0 r).start_offset = 0 ∧
      (mk_request_with_offset_0 r).max_hits = r.max_hits + r.start_offset) ∧
    List.Sorted hit_desc (root_search_after_leaf r assigned leaf_results ideal_fetch_docs).hits ∧
    List.Perm
      ((root_search_after_leaf r assigned leaf_results ideal_fetch_docs).hits.map Hit.phit)
      (((((leaf_results.map LeafSearchResult.phits).flatten.insertionSort ph_desc).drop
          r.start_offset).take r.max_hits).map some) ∧
    (root_search_after_leaf r assigned leaf_results ideal_fetch_docs).hits.length ≤
      r.max_hits := by
  have hperm : List.Perm
      ((root_search_after_leaf r assigned leaf_results ideal_fetch_docs).hits.map Hit.phit)
      ((merge_fruits r leaf_results).phits.map (fun ph => some ph)) := by
    have key := flatten_filter_key_perm PartialHit.split_id
      (((assigned.map Prod.snd).flatten).map Job.split)
      (merge_fruits r leaf_results).phits hnd hcov
    have key2 := List.Perm.map (fun ph => some ph) key
    have hcollect2 : collect_fetched_hits ((fetch_docs_requests r.index_id assigned
        (merge_fruits r leaf_results).phits).map ideal_fetch_docs) =
        (((assigned.map Prod.snd).flatten).map (fun job =>
          (phits_for_split (merge_fruits r leaf_results).phits job.split).map
            (fun ph => ({ json := "", phit := some ph } : Hit)))).flatten :=
      ideal_collect_eq r.index_id ((assigned.map Prod.snd).flatten)
        (merge_fruits r leaf_results).phits
    show List.Perm ((sort_hits (collect_fetched_hits
        ((fetch_docs_requests r.index_id assigned (merge_fruits r leaf_results).phits).map
          ideal_fetch_docs))).map Hit.phit) _
    refine List.Perm.trans (List.Perm.map Hit.phit (List.perm_insertionSort hit_desc _)) ?_
    rw [hcollect2, collect_map_phit]
    exact key2
  refine ⟨?_, ?_, ?_, ?_⟩
  · intro lreq hmem
    simp only [execute_search_requests, List.mem_map] at hmem
    obtain ⟨cj, _, rfl⟩ := hmem
    exact ⟨rfl, rfl, rfl⟩
  · exact List.sorted_insertionSort hit_desc _
  · exact hperm
  · have h1 := hperm.length_eq
    rw [List.length_map, List.length_map] at h1
    rw [h1]
    exact List.length_take_le _ _

/-- Witness for C2: a request with `start_offset = 1`, `max_hits = 2`, two
assigned clients holding splits "s1" and "s2", and one leaf result with three
partial hits; the final hits list has at most 2 entries. -/
theorem root_search_leaf_offset_and_final_window_witness :
    (root_search_after_leaf
        { index_id := "idx", query := "q", search_fields := [], start_timestamp := none,
          end_timestamp := none, max_hits := 2, start_offset := 1 }
        [("c1", [{ split := "s1", cost := 1 }]), ("c2", [{ split := "s2", cost := 1 }])]
        [{ num_hits := 3,
           phits := [{ sorting_field_value := 1, split_id := "s1", segment_ord := 1, doc_id := 1 },
                     { sorting_field_value := 3, split_id := "s1", segment_ord := 2, doc_id := 2 },
                     { sorting_field_value := 2, split_id := "s2", segment_ord := 3, doc_id := 3 }],
           failed_requests := [], num_attempted_splits := 2 }]
        ideal_fetch_docs).hits.length ≤ 2 :=
  (root_search_leaf_offset_and_final_window
    { index_id := "idx", query := "q", search_fields := [], start_timestamp := none,
      end_timestamp := none, max_hits := 2, start_offset := 1 }
    [("c1", [{ split := "s1", cost := 1 }]), ("c2", [{ split := "s2", cost := 1 }])]
    [{ num_hits := 3,
       phits := [{ sorting_field_value := 1, split_id := "s1", segment_ord := 1, doc_id := 1 },
                 { sorting_field_value := 3, split_id := "s1", segment_ord := 2, doc_id := 2 },
                 { sorting_field_value := 2, split_id := "s2", segment_ord := 3, doc_id := 3 }],
       failed_requests := [], num_attempted_splits := 2 }]
    (by decide) (by decide)).2.2.2
